import Mathlib

/-!
Verification of the kphue client-side lighting model (`kphue.py`).

The development shallowly embeds the pure core of the library:
  * `constrain_value` — numeric clamping (source lines 1439-1458),
  * `hue_encode` / `hue_decode` — device encoding of Python values
    (source lines 1461-1501),
  * `rgb_to_hsb`, `rgb_to_xy`, `validate_rgb`, `validate_xy` — the color
    conversion engine (source lines 1222-1392),
  * `flatten_struct` / `_get_from_pool` — selector lookup (1192-1219, 1417-1436),
  * the `Luminous` commit path: `_form_state_data`, `_form_attribute_data`
    and `set` (source lines 812-957), and `Light.set` (992-1005).

Python floats are modelled as exact rationals (`ℚ`); the only float
operation that is not exact decimal arithmetic is `pow(_, 2.4)` inside the
sRGB gamma expansion, which is therefore carried as an explicit function
parameter `powf` so that every theorem below holds for any realisation of
that power function.
-/

namespace Kphue

/-- Python `int(q)` on a float: truncation toward zero. -/
def pyInt (q : ℚ) : ℤ :=
  if 0 ≤ q then ⌊q⌋ else ⌈q⌉

/-- `constrain_value(value, bound_min, bound_max)` (source 1439-1458):
swap the bounds if given in the wrong order, then clamp. Polymorphic over
ordered values, as the Python function is duck-typed over numbers. -/
def constrain_value {α : Type} [LinearOrder α] (value bmin bmax : α) : α :=
  let b := if bmin > bmax then (bmax, bmin) else (bmin, bmax)
  if value < b.1 then b.1
  else if value > b.2 then b.2
  else value

/-- A Python/JSON value as it appears in the kphue data flow. The only
container value the commit path ever compares is the two-float `xy` list,
modelled by the dedicated constructor `floatpair`. -/
inductive PyVal : Type where
  | pynone : PyVal
  | bool (b : Bool) : PyVal
  | int (n : ℤ) : PyVal
  | float (q : ℚ) : PyVal
  | str (s : String) : PyVal
  | floatpair (a b : ℚ) : PyVal
  deriving DecidableEq, Repr

/-- `hue_encode(value)` (source 1461-1474): `None` becomes the literal
string sentinel `'none'`; everything else passes through. -/
def hue_encode (v : PyVal) : PyVal :=
  match v with
  | .pynone => .str "none"
  | v => v

/-- Value of a list of decimal digit characters. -/
def digitsVal (l : List Char) : ℕ :=
  l.foldl (fun a c => a * 10 + (c.toNat - 48)) 0

/-- Python `float(s)` restricted to plain decimal forms `[-]ddd.ddd`
(the only branch of `hue_decode` that calls it requires a `'.'` in the
string). Exotic inputs Python would also accept (exponents, `inf`,
leading `+`, whitespace) are not reached by any claim and parse to
`none` here, which `hue_decode` maps back to the unchanged string. -/
def parseDecimal (s : String) : Option ℚ :=
  let (sgn, body) : ℚ × String :=
    if s.startsWith "-" then (-1, s.drop 1) else (1, s)
  match body.splitOn "." with
  | [ip, fp] =>
    if (ip ≠ "" ∨ fp ≠ "") ∧ ip.toList.all Char.isDigit ∧ fp.toList.all Char.isDigit then
      some (sgn * ((digitsVal ip.toList : ℚ) +
        (digitsVal fp.toList : ℚ) / (10 : ℚ) ^ fp.length))
    else none
  | _ => none

/-- `hue_decode(value)` (source 1477-1501): the string `'none'` decodes to
`None`; booleans, ints and floats pass through; other strings are parsed
as a float when they contain `'.'`, as an int otherwise, falling back to
the string itself. (Python would raise `TypeError` on a container input;
that branch is unreachable in the embedded claims and is modelled as the
identity.) -/
def hue_decode (v : PyVal) : PyVal :=
  match v with
  | .str s =>
    if s = "none" then .pynone
    else if s.contains '.' then
      match parseDecimal s with
      | some q => .float q
      | none => .str s
    else
      match s.toInt? with
      | some n => .int n
      | none => .str s
  | .bool b => .bool b
  | .int n => .int n
  | .float q => .float q
  | .pynone => .pynone
  | .floatpair a b => .floatpair a b

/-- `validate_rgb` (source 1222-1241): clamp each channel into `[0, 255]`.
The channels are carried as integers (`int(...)` in the source). -/
def validate_rgb (t : ℤ × ℤ × ℤ) : ℤ × ℤ × ℤ :=
  (constrain_value t.1 0 255, constrain_value t.2.1 0 255,
    constrain_value t.2.2 0 255)

/-- `validate_xy` (source 1244-1261): clamp both coordinates into
`[0.0, 1.0]`. -/
def validate_xy (p : ℚ × ℚ) : ℚ × ℚ :=
  (constrain_value p.1 0 1, constrain_value p.2 0 1)

/-- `make_vivid` (source 1306-1320): normalize a channel to `[0,1]` and
apply sRGB gamma expansion. The float `pow(_, 2.4)` is the parameter
`powf`. -/
def make_vivid (powf : ℚ → ℚ) (value : ℤ) : ℚ :=
  let v_norm : ℚ := (value : ℚ) / 255
  if v_norm > 0.04045 then powf ((v_norm + 0.055) / 1.055)
  else v_norm / 12.92

/-- The gamma-expanded XYZ components computed inside `rgb_to_xy`
(source 1322-1328). -/
def xyzOf (powf : ℚ → ℚ) (t : ℤ × ℤ × ℤ) : ℚ × ℚ × ℚ :=
  let v := validate_rgb t
  let r_fin := make_vivid powf v.1
  let g_fin := make_vivid powf v.2.1
  let b_fin := make_vivid powf v.2.2
  (r_fin * 0.649926 + g_fin * 0.103455 + b_fin * 0.197109,
   r_fin * 0.234327 + g_fin * 0.743075 + b_fin * 0.022598,
   r_fin * 0.000000 + g_fin * 0.053077 + b_fin * 1.035763)

/-- `rgb_to_xy` (source 1264-1338): gamma-expand, apply the fixed RGB→XYZ
matrix, project to chromaticity with a zero-denominator guard, clamp. -/
def rgb_to_xy (powf : ℚ → ℚ) (t : ℤ × ℤ × ℤ) : ℚ × ℚ :=
  let xyz := xyzOf powf t
  let total := xyz.1 + xyz.2.1 + xyz.2.2
  let xy : ℚ × ℚ := if total ≠ 0 then (xyz.1 / total, xyz.2.1 / total) else (0, 0)
  validate_xy xy

/-- `rgb_to_hsb` (source 1341-1392). Returns the `[hue, saturation,
brightness]` triple. The final scaling uses Python `int(...)`, i.e.
truncation (`pyInt`), on `HUE_MAX * hue_norm / 360.0`, `sat_norm * SAT_MAX`
and `bri_norm * BRI_MAX` with `HUE_MAX = 65535`, `SAT_MAX = BRI_MAX = 254`. -/
def rgb_to_hsb (t : ℤ × ℤ × ℤ) : ℤ × ℤ × ℤ :=
  let v := validate_rgb t
  let r_norm : ℚ := (v.1 : ℚ) / 255
  let g_norm : ℚ := (v.2.1 : ℚ) / 255
  let b_norm : ℚ := (v.2.2 : ℚ) / 255
  let rgb_min := min r_norm (min g_norm b_norm)
  let rgb_max := max r_norm (max g_norm b_norm)
  let hsb : ℚ × ℚ × ℚ :=
    if rgb_min = rgb_max then
      (0, 0, rgb_min)
    else
      let dh : ℚ × ℚ :=
        if r_norm = rgb_min then (g_norm - b_norm, 3)
        else if b_norm = rgb_min then (r_norm - g_norm, 1)
        else (b_norm - r_norm, 5)
      (60 * (dh.2 - dh.1 / (rgb_max - rgb_min)),
        (rgb_max - rgb_min) / rgb_max, rgb_max)
  (pyInt (65535 * hsb.1 / 360), pyInt (hsb.2.1 * 254), pyInt (hsb.2.2 * 254))

/-! ## Selector lookup (`flatten_struct`, `_get_from_pool`) -/

/-- A pool resource, identified by device id and name
(`HueResource.index` / `HueResource.name`). -/
structure PoolItem : Type where
  index : ℤ
  name : String
  deriving DecidableEq, Repr

/-- A lookup selector as accepted by `_get_from_pool`: an integer id, a
name string, an already-resolved resource handle, or an arbitrarily
nested sequence of selectors. -/
inductive Selector : Type where
  | id (n : ℤ) : Selector
  | name (s : String) : Selector
  | handle (h : PoolItem) : Selector
  | nested (xs : List Selector) : Selector

/-- `flatten_struct` (source 1417-1436): flatten nested sequences into a
single list of atoms. (Under Python 2 semantics: strings are atoms, not
iterated character by character.) -/
def flatten_struct : List Selector → List Selector
  | [] => []
  | .id n :: rest => .id n :: flatten_struct rest
  | .name s :: rest => .name s :: flatten_struct rest
  | .handle h :: rest => .handle h :: flatten_struct rest
  | .nested xs :: rest => flatten_struct xs ++ flatten_struct rest

/-- The pass-through handles of a flattened selector list, in order. -/
def selHandles (items : List Selector) : List PoolItem :=
  items.filterMap fun i => match i with
    | .handle h => some h
    | _ => none

/-- The integer ids of a flattened selector list. -/
def selIds (items : List Selector) : List ℤ :=
  items.filterMap fun i => match i with
    | .id n => some n
    | _ => none

/-- The name strings of a flattened selector list (`str(item)` on a
string is the string itself; flattened lists contain no nested items). -/
def selNames (items : List Selector) : List String :=
  items.filterMap fun i => match i with
    | .name s => some s
    | _ => none

/-- `_get_from_pool(pool, *args)` (source 1192-1219): flatten the
selectors, partition into ids, names and pass-through handles, and return
the handles followed by the pool items (in pool order) whose name or id
matches. -/
def getFromPool (pool : List PoolItem) (args : List Selector) : List PoolItem :=
  let items := flatten_struct args
  selHandles items ++
    pool.filter fun t => (selNames items).contains t.name || (selIds items).contains t.index

/-! ## The Luminous resource and its commit path -/

/-- The raw device snapshot of a luminous resource's state object
(`self._state[self._attr_key]` — `'action'` for a group, `'state'` for a
light). `alert` is `some _` exactly when the snapshot carries an `alert`
key (lights do, group actions do not). `xy` is stored back validated by
`refresh` (source 775-776). -/
structure RawState : Type where
  onVal : Bool
  effect : String
  xy : ℚ × ℚ
  ct : ℤ
  hue : ℤ
  sat : ℤ
  bri : ℤ
  alert : Option String
  deriving DecidableEq, Repr

/-- The raw device snapshot of the whole resource: name, the state/action
object, and the member-light id list when the resource is a group. -/
structure RawTop : Type where
  name : String
  lights : Option (List ℤ)
  state : RawState
  deriving DecidableEq, Repr

/-- The locally mirrored fields of a `Luminous` resource (plus the
`Light`/`Group` specialisation fields; `isGroup` selects which attributes
exist on the Python object). `briStash` is the private `_bri` slot of the
brightness workaround. -/
structure LumState : Type where
  isGroup : Bool
  name : String
  onVal : Bool
  effect : Option String
  xy : ℚ × ℚ
  ct : ℤ
  hue : ℤ
  sat : ℤ
  bri : ℤ
  rgb : Option (ℤ × ℤ × ℤ)
  transitiontime : Option ℤ
  briStash : Option ℤ
  alert : Option String
  color_mode : Option String
  lights : List ℤ
  scene : Option String
  deriving DecidableEq, Repr

/-- An optional string attribute as a Python value (`None` or `str`). -/
def pyOfOptStr (o : Option String) : PyVal :=
  match o with
  | none => .pynone
  | some s => .str s

/-- An xy pair as the Python list-of-floats value. -/
def pyOfXy (p : ℚ × ℚ) : PyVal :=
  .floatpair p.1 p.2

/-- Steps 1-3 of `_form_state_data` (source 898-918): resolve a pending
`rgb` write (an exact `(0,0,0)` forces `on = False`; a light in `hs`
color mode converts to HSB; otherwise to xy), or re-validate `xy`; clamp
`ct`, `hue`, `sat`, `bri` into range; reset an unsupported `effect`.
`transitiontime` is integral in this model, so `int(round(...))` is the
identity on it. -/
def conform (powf : ℚ → ℚ) (s : LumState) : LumState :=
  let s1 :=
    match s.rgb with
    | some t =>
      if t = (0, 0, 0) then { s with onVal := false, rgb := none }
      else if s.isGroup = false ∧ s.color_mode = some "hs" then
        let hsb := rgb_to_hsb t
        { s with hue := hsb.1, sat := hsb.2.1, bri := hsb.2.2, rgb := none }
      else { s with xy := rgb_to_xy powf t, rgb := none }
    | none => { s with xy := validate_xy s.xy }
  { s1 with
    ct := constrain_value s1.ct 153 500,
    hue := constrain_value s1.hue 0 65535,
    sat := constrain_value s1.sat 0 254,
    bri := constrain_value s1.bri 0 254,
    effect := if s1.effect ≠ none ∧ s1.effect ≠ some "colorloop" then none else s1.effect }

/-- Step 4 of `_form_state_data` (source 920-938): the transition-time
brightness workaround. It fires only when the snapshot `on` differs from
the desired `on` and a `transitiontime` is set. Turning on restores the
stash when it is truthy (present and nonzero, Python `if self._bri:`);
turning off stashes the brightness and nudges the outgoing value. -/
def applyBriWorkaround (rawOn : Bool) (s : LumState) : LumState :=
  if rawOn ≠ s.onVal ∧ s.transitiontime ≠ none then
    if s.onVal then
      match s.briStash with
      | some b => if b ≠ 0 then { s with bri := b, briStash := none } else s
      | none => s
    else
      if s.bri > 0 then { s with briStash := some s.bri, bri := s.bri - 1 }
      else { s with briStash := some s.bri, bri := 1 }
  else s

/-- The outgoing state payload: each recognised field is either absent or
present with its encoded value. -/
structure StatePayload : Type where
  onVal : Option PyVal := none
  effect : Option PyVal := none
  xy : Option PyVal := none
  ct : Option PyVal := none
  hue : Option PyVal := none
  sat : Option PyVal := none
  bri : Option PyVal := none
  alert : Option PyVal := none
  transitiontime : Option PyVal := none
  deriving DecidableEq, Repr

/-- The empty state payload (`states = {}`). -/
def emptyStatePayload : StatePayload := {}

/-- The minimal-diff loop of `_form_state_data` (source 940-949): for
every key of the raw state object that exists as an attribute on the
resource, include its encoded local value iff it differs from the raw
value. `colormode` and `reachable` keys have no matching attribute
(`color_mode` / `is_reachable`) and are never included; the `alert` key
only exists for lights, and groups have no `alert` attribute. -/
def diffStates (s : LumState) (raw : RawState) : StatePayload :=
  let onv := hue_encode (.bool s.onVal)
  let effv := hue_encode (pyOfOptStr s.effect)
  let xyv := hue_encode (pyOfXy s.xy)
  let ctv := hue_encode (.int s.ct)
  let huev := hue_encode (.int s.hue)
  let satv := hue_encode (.int s.sat)
  let briv := hue_encode (.int s.bri)
  { onVal := if PyVal.bool raw.onVal ≠ onv then some onv else none,
    effect := if PyVal.str raw.effect ≠ effv then some effv else none,
    xy := if pyOfXy raw.xy ≠ xyv then some xyv else none,
    ct := if PyVal.int raw.ct ≠ ctv then some ctv else none,
    hue := if PyVal.int raw.hue ≠ huev then some huev else none,
    sat := if PyVal.int raw.sat ≠ satv then some satv else none,
    bri := if PyVal.int raw.bri ≠ briv then some briv else none,
    alert :=
      match raw.alert with
      | some a =>
        if s.isGroup then none
        else
          let av := hue_encode (pyOfOptStr s.alert)
          if PyVal.str a ≠ av then some av else none
      | none => none,
    transitiontime := none }

/-- The tail of `_form_state_data` (source 950-957): a non-empty payload
with a set `transitiontime` also carries `transitiontime`; a non-empty
payload without `on` gets `on = True` forced in. -/
def finalizeStates (s : LumState) (p : StatePayload) : StatePayload :=
  let p1 :=
    match s.transitiontime with
    | some t => if p ≠ emptyStatePayload then { p with transitiontime := some (.int t) } else p
    | none => p
  if p1.onVal = none ∧ p1 ≠ emptyStatePayload then { p1 with onVal := some (hue_encode (.bool true)) }
  else p1

/-- `_form_state_data` (source 892-957): conform the fields, apply the
brightness workaround against the snapshot `on`, then build the minimal
diff. Returns the mutated resource state together with the payload. -/
def formStateData (powf : ℚ → ℚ) (s : LumState) (raw : RawState) :
    LumState × StatePayload :=
  let s2 := applyBriWorkaround raw.onVal (conform powf s)
  (s2, finalizeStates s2 (diffStates s2 raw))

/-- The outgoing attribute payload (`_form_attribute_data`). -/
structure AttrPayload : Type where
  name : Option String := none
  lights : Option (List ℤ) := none
  scene : Option String := none
  deriving DecidableEq, Repr

/-- The empty attribute payload (`attrs = {}`). -/
def emptyAttrPayload : AttrPayload := {}

/-- Python `list.remove`: drop the first occurrence, or fail. -/
def removeFirst : List ℤ → ℤ → Option (List ℤ)
  | [], _ => none
  | x :: xs, y => if x = y then some xs else (removeFirst xs y).map (x :: ·)

/-- The member-lights comparison loop of `_form_attribute_data`
(source 876-885): remove each local light id from the raw id list; the
`lights` attribute is transmitted iff a removal fails or raw ids are
left over. -/
def lightsChanged : List ℤ → List ℤ → Bool
  | acc, [] => acc ≠ []
  | acc, i :: rest =>
    match removeFirst acc i with
    | some acc2 => lightsChanged acc2 rest
    | none => true

/-- `_form_attribute_data` (source 867-890): include `name` when it
differs from the snapshot, `lights` when the group membership changed,
and a pending truthy `scene` recall (a group-only attribute; the source
also clears `self.scene` after queueing it, a mutation not needed by any
claim below). -/
def formAttributeData (s : LumState) (raw : RawTop) : AttrPayload :=
  { name := if s.name ≠ raw.name then some s.name else none,
    lights :=
      match raw.lights with
      | some ids => if lightsChanged ids s.lights then some s.lights else none
      | none => none,
    scene :=
      if s.isGroup then
        match s.scene with
        | some sc => if sc ≠ "" then some sc else none
        | none => none
      else none }

/-- A per-item device response: `{"success": ...}` or `{"error": ...}`. -/
inductive ApiResult : Type where
  | success : ApiResult
  | error (desc : String) : ApiResult
  deriving DecidableEq, Repr

/-- The error scan of `Luminous.set` (source 854-858): `True` iff no
response item carries an error. -/
def respOk (rs : List ApiResult) : Bool :=
  rs.all fun r => match r with
    | .success => true
    | .error _ => false

/-- A transmitted PUT payload (attribute phase or state phase). -/
inductive PutPayload : Type where
  | attrs (a : AttrPayload) : PutPayload
  | states (p : StatePayload) : PutPayload
  deriving DecidableEq, Repr

/-- `Luminous.set` (source 812-865), minus the trailing `refresh`: apply
the two-phase commit, transmitting the attribute payload first (if
non-empty), then the state payload (if non-empty and the first phase did
not fail). Returns the list of transmitted PUT payloads and the boolean
aggregate result. The device's per-item responses for each phase are
inputs. -/
def luminousSet (powf : ℚ → ℚ) (s : LumState) (raw : RawTop)
    (attrResp stateResp : List ApiResult) : List PutPayload × Bool :=
  let attrs := formAttributeData s raw
  let states := (formStateData powf s raw.state).2
  let phase1 : List PutPayload × Bool :=
    if attrs ≠ emptyAttrPayload then ([.attrs attrs], respOk attrResp) else ([], true)
  let phase2 : List PutPayload × Bool :=
    if phase1.2 = true ∧ states ≠ emptyStatePayload then
      ([.states states], respOk stateResp)
    else ([], phase1.2)
  (phase1.1 ++ phase2.1, phase2.2)

/-- The Python return value of `Light.set`: a bool, or `None` when the
function falls through without a `return`. -/
inductive PyRet : Type where
  | bool (b : Bool) : PyRet
  | pynone : PyRet
  deriving DecidableEq, Repr

/-- `Light.set` (source 992-1005): an unreachable light refuses the
commit with `False`; otherwise the superclass commit runs but its result
is dropped — the `else` branch has no `return`, so Python returns `None`. -/
def lightSet (powf : ℚ → ℚ) (s : LumState) (raw : RawTop) (isReachable : Bool)
    (attrResp stateResp : List ApiResult) : PyRet :=
  if isReachable = false then .bool false
  else
    let _ := luminousSet powf s raw attrResp stateResp
    .pynone

/-- A concrete light state used by the example theorems below: mirrors
`exRawState` exactly (no pending change). -/
def exBase : LumState :=
  { isGroup := false, name := "Lamp", onVal := false, effect := none,
    xy := (0, 1), ct := 300, hue := 1000, sat := 100, bri := 100,
    rgb := none, transitiontime := none, briStash := none,
    alert := none, color_mode := some "xy", lights := [], scene := none }

/-- The raw state snapshot matching `exBase`. -/
def exRawState : RawState :=
  { onVal := false, effect := "none", xy := (0, 1), ct := 300, hue := 1000,
    sat := 100, bri := 100, alert := some "none" }

/-- The raw resource snapshot matching `exBase`. -/
def exRawTop : RawTop :=
  { name := "Lamp", lights := none, state := exRawState }

/-- `exBase` about to be turned off with a transition time set. -/
def c1OffEdge : LumState :=
  { exBase with transitiontime := some 5, bri := 7 }

/-- A light that is on, with a transition time set and a stashed
brightness of `0` left over from an earlier off-commit at brightness 0. -/
def c1StashZero : LumState :=
  { exBase with
    onVal := true
    transitiontime := some 5
    bri := 7
    briStash := some 0 }

/-- `exBase` with a pending `bri = 200` write and `transitiontime = 10`
(the spec scenario for the forced `on`). -/
def c3State : LumState :=
  { exBase with bri := 200, transitiontime := some 10 }

/-- `exBase` with a pending `bri = 200` write and no transition time
(the forced `on` fires regardless of `transitiontime`). -/
def c3StateNoTT : LumState :=
  { exBase with bri := 200 }

/-- `exBase` with only a pending rename (non-empty attribute payload,
empty state payload). -/
def c8AttrState : LumState :=
  { exBase with name := "Renamed" }

/-! ## Helper lemmas -/

theorem constrain_def {α : Type} [LinearOrder α] (v lo hi : α) :
    constrain_value v lo hi =
      if lo > hi then (if v < hi then hi else if v > lo then lo else v)
      else (if v < lo then lo else if v > hi then hi else v) := by
  unfold constrain_value
  by_cases h : lo > hi <;> simp [h]

theorem constrain_of_mem {α : Type} [LinearOrder α] {v lo hi : α}
    (h1 : lo ≤ v) (h2 : v ≤ hi) : constrain_value v lo hi = v := by
  rw [constrain_def, if_neg (not_lt.mpr (le_trans h1 h2)),
    if_neg (not_lt.mpr h1), if_neg (not_lt.mpr h2)]

theorem validate_rgb_of_mem {r g b : ℤ}
    (hr1 : 0 ≤ r) (hr2 : r ≤ 255) (hg1 : 0 ≤ g) (hg2 : g ≤ 255)
    (hb1 : 0 ≤ b) (hb2 : b ≤ 255) :
    validate_rgb (r, g, b) = (r, g, b) := by
  simp only [validate_rgb, constrain_of_mem hr1 hr2, constrain_of_mem hg1 hg2,
    constrain_of_mem hb1 hb2]

theorem pyInt_eq_of_nonneg {q : ℚ} {n : ℤ} (h0 : 0 ≤ q)
    (h1 : (n : ℚ) ≤ q) (h2 : q < n + 1) : pyInt q = n := by
  rw [pyInt, if_pos h0]
  exact Int.floor_eq_iff.mpr ⟨h1, h2⟩

theorem round_rat_eq {q : ℚ} {n : ℤ} (h1 : (n : ℚ) ≤ q + 1 / 2)
    (h2 : q + 1 / 2 < n + 1) : round q = n := by
  rw [round_eq]
  exact Int.floor_eq_iff.mpr ⟨h1, h2⟩

theorem constrain_mem {α : Type} [LinearOrder α] {v lo hi : α} (h : lo ≤ hi) :
    lo ≤ constrain_value v lo hi ∧ constrain_value v lo hi ≤ hi := by
  rw [constrain_def, if_neg (not_lt.mpr h)]
  split_ifs with h1 h2
  · exact ⟨le_refl _, h⟩
  · exact ⟨h, le_refl _⟩
  · exact ⟨not_lt.mp h1, not_lt.mp h2⟩

theorem rgb_to_xy_of_sum_zero (powf : ℚ → ℚ) (t : ℤ × ℤ × ℤ)
    (hsum : (xyzOf powf t).1 + (xyzOf powf t).2.1 + (xyzOf powf t).2.2 = 0) :
    rgb_to_xy powf t = (0, 0) := by
  simp only [rgb_to_xy]
  rw [if_neg (not_not_intro hsum)]
  simp only [validate_xy]
  rw [constrain_of_mem (le_refl (0 : ℚ)) (by norm_num)]

theorem flatten_struct_nested (args : List Selector) :
    flatten_struct [Selector.nested args] = flatten_struct args := by
  simp [flatten_struct]

theorem removeFirst_cons_self (i : ℤ) (l : List ℤ) :
    removeFirst (i :: l) i = some l := by
  rw [removeFirst, if_pos rfl]

theorem hue_encode_bool (b : Bool) : hue_encode (.bool b) = .bool b := rfl

theorem hue_encode_int (n : ℤ) : hue_encode (.int n) = .int n := rfl

theorem hue_encode_of_str (s : String) : hue_encode (.str s) = .str s := rfl

theorem hue_encode_floatpair (a b : ℚ) :
    hue_encode (.floatpair a b) = .floatpair a b := rfl

theorem hue_encode_pyOfOptStr (x : Option String) :
    hue_encode (pyOfOptStr x) = .str (x.getD "none") := by
  cases x <;> rfl

theorem conform_transitiontime (powf : ℚ → ℚ) (s : LumState) :
    (conform powf s).transitiontime = s.transitiontime := by
  unfold conform
  cases h : s.rgb <;> dsimp only <;> first | rfl | (split_ifs <;> rfl)

theorem workaround_transitiontime (rawOn : Bool) (s : LumState) :
    (applyBriWorkaround rawOn s).transitiontime = s.transitiontime := by
  unfold applyBriWorkaround
  cases hb : s.briStash <;> dsimp only <;> split_ifs <;> rfl

theorem finalize_empty (s : LumState) :
    finalizeStates s emptyStatePayload = emptyStatePayload := by
  cases h : s.transitiontime <;> simp [finalizeStates, h]

theorem lightsChanged_self (l : List ℤ) : lightsChanged l l = false := by
  induction l with
  | nil => rfl
  | cons i rest ih =>
    rw [lightsChanged, removeFirst_cons_self]
    exact ih

/-! ## Claims -/

/-- **C9.** `constrain_value` is idempotent, invariant under swapped
bounds, and always lands in `[min lo hi, max lo hi]`, for every rational
value and every pair of bounds (the function is total, so "the call does
not crash"). -/
theorem c9_constrain_clamp (v lo hi : ℚ) :
    constrain_value (constrain_value v lo hi) lo hi = constrain_value v lo hi ∧
    constrain_value v hi lo = constrain_value v lo hi ∧
    min lo hi ≤ constrain_value v lo hi ∧ constrain_value v lo hi ≤ max lo hi := by
  refine ⟨?_, ?_, ?_, ?_⟩
  · simp only [constrain_def]
    split_ifs <;> first | rfl | linarith
  · simp only [constrain_def]
    split_ifs <;> first | rfl | linarith
  · simp only [constrain_def]
    rcases le_total lo hi with h | h <;>
      [rw [min_eq_left h]; rw [min_eq_right h]] <;> split_ifs <;> linarith
  · simp only [constrain_def]
    rcases le_total lo hi with h | h <;>
      [rw [max_eq_right h]; rw [max_eq_left h]] <;> split_ifs <;> linarith

/-- **C10.** The device encoding round-trips on `None`, booleans,
integers and floats: `hue_decode (hue_encode v) = v`; in particular
`None` encodes to the `'none'` sentinel and `'none'` decodes back to
`None`. -/
theorem c10_encode_decode_roundtrip :
    hue_encode .pynone = .str "none" ∧
    hue_decode (.str "none") = .pynone ∧
    hue_decode (hue_encode .pynone) = .pynone ∧
    (∀ b : Bool, hue_decode (hue_encode (.bool b)) = .bool b) ∧
    (∀ n : ℤ, hue_decode (hue_encode (.int n)) = .int n) ∧
    (∀ q : ℚ, hue_decode (hue_encode (.float q)) = .float q) := by
  refine ⟨rfl, by decide, by decide, fun b => rfl, fun n => rfl, fun q => rfl⟩

/-- **C5, counterexample.** The claim says the achromatic brightness is
`round(254·r/255)`. At `r = 100` the source truncates: `rgb_to_hsb`
yields brightness `99` while `round(254·100/255) = round(99.6078…) = 100`. -/
theorem c5_counterexample :
    rgb_to_hsb (100, 100, 100) = (0, 0, 99) ∧
    round ((254 : ℚ) * 100 / 255) = 100 ∧
    rgb_to_hsb (100, 100, 100) ≠ (0, 0, round ((254 : ℚ) * 100 / 255)) := by
  have h1 : rgb_to_hsb (100, 100, 100) = (0, 0, 99) := by
    unfold rgb_to_hsb
    rw [validate_rgb_of_mem (by norm_num) (by norm_num) (by norm_num)
      (by norm_num) (by norm_num) (by norm_num)]
    simp only [min_self, max_self, eq_self_iff_true, if_true, Prod.mk.injEq]
    refine ⟨?_, ?_, ?_⟩ <;>
      exact pyInt_eq_of_nonneg (by norm_num) (by norm_num) (by norm_num)
  have h2 : round ((254 : ℚ) * 100 / 255) = 100 :=
    round_rat_eq (by norm_num) (by norm_num)
  refine ⟨h1, h2, ?_⟩
  rw [h1, h2]
  decide

/-- **C5, amended.** For every achromatic integer triple `(r,r,r)` with
`r ∈ [0,255]`, `rgb_to_hsb` returns hue `0` exactly, saturation `0`, and
brightness `⌊254·r/255⌋` (truncation toward zero, Python `int(...)`) —
not `round(254·r/255)` as the claim stated. -/
theorem c5_achromatic_trunc (r : ℤ) (h1 : 0 ≤ r) (h2 : r ≤ 255) :
    rgb_to_hsb (r, r, r) = (0, 0, pyInt (254 * (r : ℚ) / 255)) := by
  unfold rgb_to_hsb
  rw [validate_rgb_of_mem h1 h2 h1 h2 h1 h2]
  simp only [min_self, max_self, eq_self_iff_true, if_true, Prod.mk.injEq]
  refine ⟨by norm_num [pyInt], by norm_num [pyInt], ?_⟩
  congr 1
  ring

/-- **C5, witness.** The amended theorem evaluated at `r = 200`:
`rgb_to_hsb (200,200,200) = (0, 0, 199)`. -/
theorem c5_achromatic_trunc_witness :
    rgb_to_hsb (200, 200, 200) = (0, 0, pyInt (254 * (200 : ℚ) / 255)) :=
  c5_achromatic_trunc 200 (by decide) (by decide)

/-- **C6.** For every RGB input and every realisation `powf` of the float
power function, both chromaticity coordinates returned by `rgb_to_xy` lie
in `[0,1]`; whenever the gamma-expanded XYZ components sum to zero the
result is `(0,0)`; and in particular `rgb_to_xy (0,0,0) = (0,0)` (the
`(0,0,0)` input takes the linear gamma branch, so its XYZ sum is zero for
every `powf`). The function is total, so no division by zero or failure
occurs. -/
theorem c6_xy_zero_guard_and_range (powf : ℚ → ℚ) (r g b : ℤ) :
    (0 ≤ (rgb_to_xy powf (r, g, b)).1 ∧ (rgb_to_xy powf (r, g, b)).1 ≤ 1 ∧
     0 ≤ (rgb_to_xy powf (r, g, b)).2 ∧ (rgb_to_xy powf (r, g, b)).2 ≤ 1) ∧
    ((xyzOf powf (r, g, b)).1 + (xyzOf powf (r, g, b)).2.1 +
        (xyzOf powf (r, g, b)).2.2 = 0 → rgb_to_xy powf (r, g, b) = (0, 0)) ∧
    rgb_to_xy powf (0, 0, 0) = (0, 0) := by
  refine ⟨?_, rgb_to_xy_of_sum_zero powf (r, g, b), ?_⟩
  · have hrange : ∀ q : ℚ, 0 ≤ constrain_value q 0 1 ∧ constrain_value q 0 1 ≤ 1 :=
      fun q => constrain_mem (by norm_num)
    unfold rgb_to_xy validate_xy
    exact ⟨(hrange _).1, (hrange _).2, (hrange _).1, (hrange _).2⟩
  · apply rgb_to_xy_of_sum_zero
    have hv : make_vivid powf 0 = 0 := by
      unfold make_vivid
      norm_num
    have hval : validate_rgb (0, 0, 0) = (0, 0, 0) := by
      simp only [validate_rgb]
      rw [constrain_of_mem (le_refl (0 : ℤ)) (by norm_num)]
    simp only [xyzOf, hval]
    rw [hv]
    ring

/-- **C6, witness.** The zero-denominator guard and the range bound,
instantiated at the identity power function: `rgb_to_xy (0,0,0) = (0,0)`
and the first coordinate at `(12, 34, 56)` is within `[0,1]`. -/
theorem c6_xy_zero_guard_witness :
    rgb_to_xy (fun q => q) (0, 0, 0) = (0, 0) ∧
    0 ≤ (rgb_to_xy (fun q => q) (12, 34, 56)).1 ∧
    (rgb_to_xy (fun q => q) (12, 34, 56)).1 ≤ 1 :=
  ⟨(c6_xy_zero_guard_and_range (fun q => q) 0 0 0).2.2,
    (c6_xy_zero_guard_and_range (fun q => q) 12 34 56).1.1,
    (c6_xy_zero_guard_and_range (fun q => q) 12 34 56).1.2.1⟩

/-- **C7, counterexample.** The claim says the lookup result contains no
duplicate entries. When a pass-through handle also matches by id, the
source appends the same resource twice: with pool `[⟨1,"A"⟩]` and
selectors `[1, handle ⟨1,"A"⟩]`, `_get_from_pool` returns the resource
twice. -/
theorem c7_counterexample :
    getFromPool [⟨1, "A"⟩] [.id 1, .handle ⟨1, "A"⟩] =
      [⟨1, "A"⟩, ⟨1, "A"⟩] ∧
    ¬ (getFromPool [⟨1, "A"⟩] [.id 1, .handle ⟨1, "A"⟩]).Nodup := by
  have h : getFromPool [⟨1, "A"⟩] [.id 1, .handle ⟨1, "A"⟩] =
      [⟨1, "A"⟩, ⟨1, "A"⟩] := by
    simp [getFromPool, flatten_struct, selHandles, selIds, selNames]
  refine ⟨h, ?_⟩
  rw [h]
  simp

/-- **C7, amended.** `_get_from_pool` flattens arbitrarily nested
selectors (wrapping the selector list one level deeper does not change
the result), returns the pass-through handles first followed by the
pool items (in pool order) matching some id or name, never raises (it is
total, returning `[]` when no handle is passed and nothing matches), and
the match segment repeats no pool entry when the pool itself has no
duplicates — but, unlike the claim, a pass-through handle that is *also*
matched by id or name occurs again in the match segment, so the full
result may contain duplicates (see the counterexample). -/
theorem c7_lookup_amended (pool : List PoolItem) (args : List Selector) :
    getFromPool pool args =
      selHandles (flatten_struct args) ++
        pool.filter (fun t => (selNames (flatten_struct args)).contains t.name
          || (selIds (flatten_struct args)).contains t.index) ∧
    getFromPool pool [Selector.nested args] = getFromPool pool args ∧
    (pool.Nodup →
      (pool.filter (fun t => (selNames (flatten_struct args)).contains t.name
        || (selIds (flatten_struct args)).contains t.index)).Nodup) ∧
    (selHandles (flatten_struct args) = [] →
      (∀ t ∈ pool, ((selNames (flatten_struct args)).contains t.name
        || (selIds (flatten_struct args)).contains t.index) = false) →
      getFromPool pool args = []) := by
  refine ⟨rfl, ?_, ?_, ?_⟩
  · unfold getFromPool
    rw [flatten_struct_nested]
  · intro hnd
    exact hnd.filter _
  · intro hh hmatch
    show selHandles (flatten_struct args) ++ _ = _
    rw [hh, List.nil_append]
    exact List.filter_eq_nil_iff.mpr fun t ht => by simpa using hmatch t ht

/-- **C7, witness.** Nesting invariance from the amended theorem at a
concrete mixed selector list over a concrete pool. -/
theorem c7_lookup_amended_witness :
    getFromPool [⟨1, "X"⟩, ⟨5, "Kitchen"⟩]
        [Selector.nested [.id 1, .nested [.name "Kitchen", .id 5], .handle ⟨9, "H"⟩]] =
      getFromPool [⟨1, "X"⟩, ⟨5, "Kitchen"⟩]
        [.id 1, .nested [.name "Kitchen", .id 5], .handle ⟨9, "H"⟩] :=
  (c7_lookup_amended [⟨1, "X"⟩, ⟨5, "Kitchen"⟩]
    [.id 1, .nested [.name "Kitchen", .id 5], .handle ⟨9, "H"⟩]).2.1

/-- **C1, counterexample.** On an off-to-on edge with a transition time
set and a *zero* stashed brightness, the claim says the stash is restored
and cleared; the source's `if self._bri:` treats the zero stash as falsy
and leaves both the brightness and the stash untouched. -/
theorem c1_counterexample :
    (false ≠ c1StashZero.onVal ∧ c1StashZero.transitiontime = some 5 ∧
      c1StashZero.briStash = some 0 ∧ c1StashZero.bri = 7) ∧
    applyBriWorkaround false c1StashZero = c1StashZero ∧
    (applyBriWorkaround false c1StashZero).bri = 7 ∧
    (applyBriWorkaround false c1StashZero).briStash = some 0 := by
  refine ⟨by decide, by decide, by decide, by decide⟩

/-- **C1, amended.** The brightness-stash workaround fires exactly when
the snapshot `on` differs from the desired `on` and a transition time is
set. On an on-to-off edge the brightness is stashed and the outgoing
brightness becomes `bri − 1` when `bri > 0`, else `1`. On an off-to-on
edge the stashed brightness is restored and the stash cleared *only when
the stash is present and nonzero* (Python truthiness of `self._bri`); an
absent or zero stash leaves the state untouched. In particular a commit
with no on/off edge (e.g. turning off an already-off light) never touches
the brightness or the stash. -/
theorem c1_brightness_stash_amended (s : LumState) (rawOn : Bool) :
    (rawOn = s.onVal ∨ s.transitiontime = none → applyBriWorkaround rawOn s = s) ∧
    (rawOn ≠ s.onVal → s.transitiontime ≠ none →
      ((s.onVal = false →
          applyBriWorkaround rawOn s =
            { s with briStash := some s.bri,
                     bri := if s.bri > 0 then s.bri - 1 else 1 }) ∧
       (∀ b0 : ℤ, s.onVal = true → s.briStash = some b0 → b0 ≠ 0 →
          applyBriWorkaround rawOn s = { s with bri := b0, briStash := none }) ∧
       (s.onVal = true → s.briStash = none ∨ s.briStash = some 0 →
          applyBriWorkaround rawOn s = s))) := by
  constructor
  · intro h
    have hcond : ¬(rawOn ≠ s.onVal ∧ s.transitiontime ≠ none) := by
      rcases h with h | h
      · exact fun hc => hc.1 h
      · exact fun hc => hc.2 h
    rw [applyBriWorkaround, if_neg hcond]
  · intro h1 h2
    have hcond : rawOn ≠ s.onVal ∧ s.transitiontime ≠ none := ⟨h1, h2⟩
    refine ⟨?_, ?_, ?_⟩
    · intro hoff
      rw [applyBriWorkaround, if_pos hcond, hoff]
      simp only [Bool.false_eq_true, if_false]
      split_ifs with hb <;> rfl
    · intro b0 hon hstash hb0
      rw [applyBriWorkaround, if_pos hcond, hon, hstash]
      simp [hb0]
    · intro hon hstash
      rcases hstash with h | h <;> rw [applyBriWorkaround, if_pos hcond, hon, h] <;> rfl

/-- **C1, witness.** The amended theorem at concrete states: a true
on-to-off edge stashes brightness 7 and sends 6; committing off on an
already-off light (no edge) changes nothing. -/
theorem c1_brightness_stash_witness :
    applyBriWorkaround true c1OffEdge =
      { c1OffEdge with briStash := some 7, bri := 6 } ∧
    applyBriWorkaround false c1OffEdge = c1OffEdge := by
  constructor
  · have h := ((c1_brightness_stash_amended c1OffEdge true).2
      (by decide) (by decide)).1 rfl
    rw [h]
    decide
  · exact (c1_brightness_stash_amended c1OffEdge false).1 (Or.inl rfl)

/-- **C8.** `Luminous.set` aggregates per-item device errors from both
phases into its boolean result, but `Light.set` on a *reachable* light
runs the superclass commit and falls through without returning it, so it
returns `None` — contradicting both the claim and its own docstring
("Returns: Boolean; True on success, False on errors"). An unreachable
light does return `False`. -/
theorem c8_light_set_returns_none :
    lightSet (fun q => q) c8AttrState exRawTop true [ApiResult.success] [] =
      PyRet.pynone ∧
    lightSet (fun q => q) c8AttrState exRawTop false [] [] = PyRet.bool false ∧
    (luminousSet (fun q => q) c8AttrState exRawTop [ApiResult.success] []).2 = true ∧
    (luminousSet (fun q => q) c8AttrState exRawTop [ApiResult.error "err"] []).2 = false ∧
    (luminousSet (fun q => q) c3State exRawTop [] [ApiResult.error "err"]).2 = false := by
  refine ⟨rfl, rfl, by decide, by decide, by decide⟩

/-- **C3.** For every commit whose minimal-diff payload is non-empty:
whenever a transition time is set, the final payload carries
`transitiontime`; and whenever the diff payload does not already contain
`on`, `on = true` is forced into the final payload — unconditionally,
whether or not a transition time is set (source lines 953-954). -/
theorem c3_nonempty_payload_extras (powf : ℚ → ℚ) (s : LumState)
    (raw : RawState)
    (hne : diffStates (applyBriWorkaround raw.onVal (conform powf s)) raw ≠
      emptyStatePayload) :
    (∀ t : ℤ, s.transitiontime = some t →
      (formStateData powf s raw).2.transitiontime = some (.int t)) ∧
    ((diffStates (applyBriWorkaround raw.onVal (conform powf s)) raw).onVal = none →
      (formStateData powf s raw).2.onVal = some (.bool true)) := by
  cases htt0 : s.transitiontime with
  | none =>
    have htt : (applyBriWorkaround raw.onVal (conform powf s)).transitiontime =
        none := by
      rw [workaround_transitiontime, conform_transitiontime, htt0]
    have hfin : (formStateData powf s raw).2 =
        (if (diffStates (applyBriWorkaround raw.onVal (conform powf s)) raw).onVal = none then
          { diffStates (applyBriWorkaround raw.onVal (conform powf s)) raw with
            onVal := some (hue_encode (.bool true)) }
        else diffStates (applyBriWorkaround raw.onVal (conform powf s)) raw) := by
      show finalizeStates (applyBriWorkaround raw.onVal (conform powf s))
        (diffStates (applyBriWorkaround raw.onVal (conform powf s)) raw) = _
      unfold finalizeStates
      rw [htt]
      dsimp only
      by_cases hon : (diffStates (applyBriWorkaround raw.onVal (conform powf s)) raw).onVal = none
      · rw [if_pos (And.intro hon hne), if_pos hon]
      · rw [if_neg (fun hc => hon hc.1), if_neg hon]
    refine ⟨?_, ?_⟩
    · intro t h
      exact Option.noConfusion h
    · intro hon
      rw [hfin, if_pos hon]
      rfl
  | some t0 =>
    have htt : (applyBriWorkaround raw.onVal (conform powf s)).transitiontime =
        some t0 := by
      rw [workaround_transitiontime, conform_transitiontime, htt0]
    have hp1ne : ({ diffStates (applyBriWorkaround raw.onVal (conform powf s)) raw with
        transitiontime := some (.int t0) } : StatePayload) ≠ emptyStatePayload := by
      intro he
      have h2 := congrArg StatePayload.transitiontime he
      simp [emptyStatePayload] at h2
    have hfin : (formStateData powf s raw).2 =
        (if (diffStates (applyBriWorkaround raw.onVal (conform powf s)) raw).onVal = none then
          { diffStates (applyBriWorkaround raw.onVal (conform powf s)) raw with
            transitiontime := some (.int t0)
            onVal := some (hue_encode (.bool true)) }
        else
          { diffStates (applyBriWorkaround raw.onVal (conform powf s)) raw with
            transitiontime := some (.int t0) }) := by
      show finalizeStates (applyBriWorkaround raw.onVal (conform powf s))
        (diffStates (applyBriWorkaround raw.onVal (conform powf s)) raw) = _
      unfold finalizeStates
      rw [htt]
      dsimp only
      rw [if_pos hne]
      by_cases hon : (diffStates (applyBriWorkaround raw.onVal (conform powf s)) raw).onVal = none
      · rw [if_pos hon, if_pos (And.intro hon hp1ne)]
      · rw [if_neg hon, if_neg (fun hc => hon hc.1)]
    refine ⟨?_, ?_⟩
    · intro t h
      injection h with h2
      subst h2
      rw [hfin]
      split_ifs <;> rfl
    · intro hon
      rw [hfin, if_pos hon]
      rfl

/-- **C3, witness.** Two instances: the spec scenario — a light with raw
`on = false`, `bri = 100`, committing `bri = 200` with
`transitiontime = 10` yields the payload
`{on: true, bri: 200, transitiontime: 10}` with no `hue`/`sat`/`xy`
entries — and the same commit with *no* transition time, where `on = true`
is still forced into the non-empty payload. -/
theorem c3_nonempty_payload_extras_witness :
    (formStateData (fun q => q) c3State exRawState).2.transitiontime =
      some (.int 10) ∧
    (formStateData (fun q => q) c3State exRawState).2.onVal =
      some (.bool true) ∧
    (formStateData (fun q => q) c3State exRawState).2 =
      { onVal := some (.bool true), bri := some (.int 200),
        transitiontime := some (.int 10) } ∧
    (formStateData (fun q => q) c3StateNoTT exRawState).2.onVal =
      some (.bool true) ∧
    (formStateData (fun q => q) c3StateNoTT exRawState).2 =
      { onVal := some (.bool true), bri := some (.int 200) } := by
  obtain ⟨h1, h2⟩ := c3_nonempty_payload_extras (fun q => q) c3State exRawState
    (by decide)
  obtain ⟨_, h4⟩ := c3_nonempty_payload_extras (fun q => q) c3StateNoTT
    exRawState (by decide)
  exact ⟨h1 10 (by decide), h2 (by decide), by decide, h4 (by decide), by decide⟩

/-- **C2.** A commit on a resource whose mirrored fields all equal the
raw snapshot (after device-side encoding; the snapshot holding
device-range values, as a refresh from a real device produces) yields an
empty attribute payload, an empty state payload, and zero PUT requests.
Moreover the minimal-diff loop (`diffStates`, the stage before the
transitiontime/forced-`on` additions of C3) includes a field only when
the encoded local value differs from the raw value. -/
theorem c2_minimal_diff (powf : ℚ → ℚ) (s : LumState) (raw : RawTop)
    (aR sR : List ApiResult)
    (h_rgb : s.rgb = none)
    (h_on : s.onVal = raw.state.onVal)
    (h_eff : s.effect = none ∧ raw.state.effect = "none" ∨
      s.effect = some "colorloop" ∧ raw.state.effect = "colorloop")
    (h_xy : s.xy = raw.state.xy)
    (h_x0 : 0 ≤ s.xy.1) (h_x1 : s.xy.1 ≤ 1)
    (h_y0 : 0 ≤ s.xy.2) (h_y1 : s.xy.2 ≤ 1)
    (h_ct : s.ct = raw.state.ct) (h_ct1 : 153 ≤ s.ct) (h_ct2 : s.ct ≤ 500)
    (h_hue : s.hue = raw.state.hue) (h_h1 : 0 ≤ s.hue) (h_h2 : s.hue ≤ 65535)
    (h_sat : s.sat = raw.state.sat) (h_s1 : 0 ≤ s.sat) (h_s2 : s.sat ≤ 254)
    (h_bri : s.bri = raw.state.bri) (h_b1 : 0 ≤ s.bri) (h_b2 : s.bri ≤ 254)
    (h_alert : ∀ a, raw.state.alert = some a → s.isGroup = false →
      PyVal.str a = hue_encode (pyOfOptStr s.alert))
    (h_name : s.name = raw.name)
    (h_lights : raw.lights = none ∨ raw.lights = some s.lights)
    (h_scene : s.scene = none) :
    formAttributeData s raw = emptyAttrPayload ∧
    (formStateData powf s raw.state).2 = emptyStatePayload ∧
    (luminousSet powf s raw aR sR).1 = [] ∧
    (∀ (s2 : LumState) (r2 : RawState),
      ((diffStates s2 r2).bri ≠ none → PyVal.int r2.bri ≠ hue_encode (.int s2.bri)) ∧
      ((diffStates s2 r2).hue ≠ none → PyVal.int r2.hue ≠ hue_encode (.int s2.hue)) ∧
      ((diffStates s2 r2).sat ≠ none → PyVal.int r2.sat ≠ hue_encode (.int s2.sat)) ∧
      ((diffStates s2 r2).ct ≠ none → PyVal.int r2.ct ≠ hue_encode (.int s2.ct)) ∧
      ((diffStates s2 r2).onVal ≠ none →
        PyVal.bool r2.onVal ≠ hue_encode (.bool s2.onVal)) ∧
      ((diffStates s2 r2).effect ≠ none →
        PyVal.str r2.effect ≠ hue_encode (pyOfOptStr s2.effect)) ∧
      ((diffStates s2 r2).xy ≠ none → pyOfXy r2.xy ≠ hue_encode (pyOfXy s2.xy))) := by
  have hxy : validate_xy s.xy = s.xy := by
    unfold validate_xy
    rw [constrain_of_mem h_x0 h_x1, constrain_of_mem h_y0 h_y1]
  have heff : (if s.effect ≠ none ∧ s.effect ≠ some "colorloop" then none
      else s.effect) = s.effect := by
    rcases h_eff with ⟨he, _⟩ | ⟨he, _⟩ <;> simp [he]
  have hconf : conform powf s = s := by
    unfold conform
    rw [h_rgb]
    dsimp only
    rw [hxy, heff, constrain_of_mem h_ct1 h_ct2, constrain_of_mem h_h1 h_h2,
      constrain_of_mem h_s1 h_s2, constrain_of_mem h_b1 h_b2, ← h_rgb]
  have hwork : applyBriWorkaround raw.state.onVal s = s := by
    have hc : ¬(raw.state.onVal ≠ s.onVal ∧ s.transitiontime ≠ none) :=
      fun hc => hc.1 h_on.symm
    rw [applyBriWorkaround, if_neg hc]
  have hdiff : diffStates s raw.state = emptyStatePayload := by
    rcases h_eff with ⟨he1, he2⟩ | ⟨he1, he2⟩ <;>
    · cases ha : raw.state.alert with
      | none =>
        simp [diffStates, emptyStatePayload, hue_encode_pyOfOptStr,
          hue_encode_bool, hue_encode_int, hue_encode_floatpair, pyOfXy,
          h_on, h_ct, h_hue, h_sat, h_bri, h_xy, he1, he2, ha]
      | some a =>
        cases hg : s.isGroup with
        | false =>
          have haeq := h_alert a ha hg
          rw [hue_encode_pyOfOptStr] at haeq
          simp [diffStates, emptyStatePayload, hue_encode_pyOfOptStr,
            hue_encode_bool, hue_encode_int, hue_encode_floatpair, pyOfXy,
            h_on, h_ct, h_hue, h_sat, h_bri, h_xy, he1, he2, ha, hg, haeq]
        | true =>
          simp [diffStates, emptyStatePayload, hue_encode_pyOfOptStr,
            hue_encode_bool, hue_encode_int, hue_encode_floatpair, pyOfXy,
            h_on, h_ct, h_hue, h_sat, h_bri, h_xy, he1, he2, ha, hg]
  have hstate : (formStateData powf s raw.state).2 = emptyStatePayload := by
    show finalizeStates (applyBriWorkaround raw.state.onVal (conform powf s))
      (diffStates (applyBriWorkaround raw.state.onVal (conform powf s))
        raw.state) = emptyStatePayload
    rw [hconf, hwork, hdiff, finalize_empty]
  have hattr : formAttributeData s raw = emptyAttrPayload := by
    rcases h_lights with hl | hl <;> cases hgg : s.isGroup <;>
      simp [formAttributeData, emptyAttrPayload, h_name, hl, h_scene, hgg,
        lightsChanged_self]
  have hreqs : (luminousSet powf s raw aR sR).1 = [] := by
    simp [luminousSet, hattr, hstate]
  refine ⟨hattr, hstate, hreqs, ?_⟩
  intro s2 r2
  refine ⟨?_, ?_, ?_, ?_, ?_, ?_, ?_⟩ <;>
  · simp only [diffStates]
    split_ifs with hc
    · exact fun _ => hc
    · exact fun h => absurd rfl h

/-- **C2, witness.** The unchanged resource `exBase` against its own
snapshot: empty attribute payload, empty state payload, zero PUTs. -/
theorem c2_minimal_diff_witness :
    formAttributeData exBase exRawTop = emptyAttrPayload ∧
    (formStateData (fun q => q) exBase exRawTop.state).2 = emptyStatePayload ∧
    (luminousSet (fun q => q) exBase exRawTop [] []).1 = [] := by
  obtain ⟨h1, h2, h3, _⟩ := c2_minimal_diff (fun q => q) exBase exRawTop [] []
    (by decide) (by decide) (Or.inl ⟨rfl, rfl⟩) (by decide) (by decide)
    (by decide) (by decide) (by decide) (by decide) (by decide) (by decide)
    (by decide) (by decide) (by decide) (by decide) (by decide) (by decide)
    (by decide) (by decide) (by decide)
    (fun a ha hg => by
      have h4 : a = "none" := by
        have h5 := ha
        simp [exRawTop, exRawState] at h5
        exact h5.symm
      rw [h4]
      rfl)
    (by decide) (Or.inl (by decide)) (by decide)
  exact ⟨h1, h2, h3⟩

end Kphue
